import Mathlib

/-!
Verification of the qudi pulse-sequence sampling engine
(`logic/sequence_generator_logic.py`) against its specification.

The Python code is shallowly embedded: NumPy double arithmetic is modelled
exactly over `ℚ`, machine integers over `ℤ`/`ℕ`, NumPy arrays over lists,
and the stateful `SequenceGeneratorLogic` object over an explicit record
`GenState` that is threaded through the operations.  Fallible paths
(Python exceptions) are modelled with `Except`.
-/

namespace Qudi

/-- Round half to even over `ℚ`, the rounding rule of `numpy.rint`.
The source computes `int(np.rint(x))`; `np.rint` already yields an
integral value, so the final `int(...)` conversion is the identity. -/
def rintQ (q : ℚ) : ℤ :=
  let f := ⌊q⌋
  let r := q - (f : ℚ)
  if r < 1/2 then f
  else if 1/2 < r then f + 1
  else if f % 2 = 0 then f else f + 1

/-- Data model: `PulseBlockElement` (attributes exactly as accessed by
`sequence_generator_logic.py`: `init_length_s`, `increment_s`,
`digital_high`, `pulse_function`, `parameters`).  The per-channel
parameter bundle of an analog sampling function is abstracted to a
single rational per channel. -/
structure PulseBlockElement where
  init_length_s : ℚ
  increment_s : ℚ
  digital_high : List Bool
  pulse_function : List String
  parameters : List ℚ
deriving DecidableEq, Repr

/-- Data model: `PulseBlock`, a named ordered list of elements. -/
structure PulseBlock where
  name : String
  element_list : List PulseBlockElement
deriving DecidableEq, Repr

/-- Data model: `PulseBlockEnsemble`.  `block_list` pairs a block with a
repetition count `reps` (the block plays `reps + 1` times).  The four
`Option` fields are the metadata read by `load_ensemble`; Python `None`
is `none`. -/
structure PulseBlockEnsemble where
  name : String
  block_list : List (PulseBlock × ℕ)
  analog_channels : ℕ
  digital_channels : ℕ
  rotating_frame : Bool
  sample_rate : Option ℚ
  amplitude_dict : Option (List (String × ℚ))
  activation_config : Option (List String)
  laser_channel : Option String
deriving DecidableEq, Repr

/-- Data model: `PulseSequence`.  `ensemble_param_list` pairs an ensemble
object with its opaque per-step parameter dict (modelled as a
string-to-string association list).  The `Option` metadata fields are
the ones read by `load_sequence`. -/
structure PulseSequence where
  name : String
  ensemble_param_list : List (PulseBlockEnsemble × List (String × String))
  rotating_frame : Bool
  sample_rate : Option ℚ
  amplitude_dict : Option (List (String × ℚ))
  activation_config : Option (List String)
  laser_channel : Option String
  sampled_ensembles : List (String × List String)
deriving DecidableEq, Repr

/-- The element length in bins: `int(np.rint(element_length_s * sample_rate))`
with `element_length_s = init_length_s + rep_no * increment_s`.  The
source repeats this exact expression verbatim in both
`_analyze_block_ensemble` and `sample_pulse_block_ensemble`. -/
def elementLengthBins (be : PulseBlockElement) (rep_no : ℕ) (sample_rate : ℚ) : ℤ :=
  rintQ ((be.init_length_s + (rep_no : ℚ) * be.increment_s) * sample_rate)

/-- The traversal order shared by the analysis pass and the sampler:
for each `(block, reps)` of `block_list`, for each repetition
`rep_no ∈ 0..reps`, each element of the block paired with `rep_no`. -/
def ensembleElems (e : PulseBlockEnsemble) : List (PulseBlockElement × ℕ) :=
  e.block_list.flatMap (fun br =>
    (List.range (br.2 + 1)).flatMap (fun rep_no =>
      br.1.element_list.map (fun be => (be, rep_no))))

/-- Result record of `_analyze_block_ensemble`
(`number_of_samples, number_of_elements, number_of_states,
state_length_bins_arr` in the source's return order). -/
structure EnsembleAnalysis where
  number_of_samples : ℤ
  number_of_elements : ℕ
  number_of_states : ℕ
  state_length_bins_arr : List ℤ
deriving DecidableEq, Repr

/-- `_analyze_block_ensemble`: walk `block_list`, accumulating for each
block a `tmp_length_bins` array filled in repetition/element order
(the source fills a preallocated array through a running `state_index`,
which is the same as this concatenation), appended onto
`state_length_bins_arr`; `number_of_elements` accumulates
`(reps+1)*len(element_list)`.  `number_of_samples` is the array sum and
`number_of_states` its length. -/
def analyze_block_ensemble (sample_rate : ℚ) (ensemble : PulseBlockEnsemble) :
    EnsembleAnalysis :=
  let res := ensemble.block_list.foldl (fun acc br =>
    let tmp_length_bins := (List.range (br.2 + 1)).flatMap (fun rep_no =>
      br.1.element_list.map (fun block_element =>
        elementLengthBins block_element rep_no sample_rate))
    (acc.1 ++ tmp_length_bins, acc.2 + (br.2 + 1) * br.1.element_list.length))
    (([] : List ℤ), (0 : ℕ))
  { number_of_samples := res.1.sum
    number_of_elements := res.2
    number_of_states := res.1.length
    state_length_bins_arr := res.1 }

/-- Closed form of the analyzer's accumulating fold: the per-state array
is the length formula mapped over the canonical traversal, and the
element count is the per-block sum. -/
theorem analyze_foldl_closed (sample_rate : ℚ) (bl : List (PulseBlock × ℕ))
    (acc : List ℤ) (n : ℕ) :
    bl.foldl (fun acc br =>
      (acc.1 ++ (List.range (br.2 + 1)).flatMap (fun rep_no =>
        br.1.element_list.map (fun block_element =>
          elementLengthBins block_element rep_no sample_rate)),
       acc.2 + (br.2 + 1) * br.1.element_list.length)) (acc, n)
    = (acc ++ (bl.flatMap (fun br =>
        (List.range (br.2 + 1)).flatMap (fun rep_no =>
          br.1.element_list.map (fun be => elementLengthBins be rep_no sample_rate)))),
       n + (bl.map (fun br => (br.2 + 1) * br.1.element_list.length)).sum) := by
  induction bl generalizing acc n with
  | nil => simp
  | cons br rest ih =>
      simp only [List.foldl_cons, ih, List.flatMap_cons, List.map_cons, List.sum_cons,
        List.append_assoc]
      rw [Prod.mk.injEq]
      exact ⟨rfl, by omega⟩

/-- The traversal's length-map agrees with the analyzer's per-block bind. -/
theorem ensembleElems_map_len (sample_rate : ℚ) (e : PulseBlockEnsemble) :
    (ensembleElems e).map (fun p => elementLengthBins p.1 p.2 sample_rate)
    = e.block_list.flatMap (fun br =>
        (List.range (br.2 + 1)).flatMap (fun rep_no =>
          br.1.element_list.map (fun be => elementLengthBins be rep_no sample_rate))) := by
  simp only [ensembleElems, List.map_flatMap, List.map_map]
  rfl

/-- C4: `_analyze_block_ensemble` returns `total_elements` equal to the sum
over `block_list` of `(reps+1)` times the block's element count; a per-state
bin-length array listing, in block/repetition/element order,
`round((init_length_s + k * increment_s) * sample_rate)` for repetition
index `k`; `total_samples` equal to the sum of that array; and
`total_states` equal to `total_elements`. -/
theorem claim_C4_analysis_outputs (sample_rate : ℚ) (e : PulseBlockEnsemble) :
    (analyze_block_ensemble sample_rate e).number_of_elements
        = (e.block_list.map (fun br => (br.2 + 1) * br.1.element_list.length)).sum
  ∧ (analyze_block_ensemble sample_rate e).state_length_bins_arr
        = (ensembleElems e).map (fun p => elementLengthBins p.1 p.2 sample_rate)
  ∧ (analyze_block_ensemble sample_rate e).number_of_samples
        = ((ensembleElems e).map (fun p => elementLengthBins p.1 p.2 sample_rate)).sum
  ∧ (analyze_block_ensemble sample_rate e).number_of_states
        = (analyze_block_ensemble sample_rate e).number_of_elements := by
  have h := analyze_foldl_closed sample_rate e.block_list [] 0
  have harr : (analyze_block_ensemble sample_rate e).state_length_bins_arr
      = (ensembleElems e).map (fun p => elementLengthBins p.1 p.2 sample_rate) := by
    rw [ensembleElems_map_len]
    simp [analyze_block_ensemble, h]
  have hel : (analyze_block_ensemble sample_rate e).number_of_elements
      = (e.block_list.map (fun br => (br.2 + 1) * br.1.element_list.length)).sum := by
    simp [analyze_block_ensemble, h]
  refine ⟨hel, harr, ?_, ?_⟩
  · have : (analyze_block_ensemble sample_rate e).number_of_samples
        = (analyze_block_ensemble sample_rate e).state_length_bins_arr.sum := rfl
    rw [this, harr]
  · have hst : (analyze_block_ensemble sample_rate e).number_of_states
        = (analyze_block_ensemble sample_rate e).state_length_bins_arr.length := rfl
    rw [hst, harr, hel, List.length_map]
    simp [ensembleElems, List.length_flatMap, List.length_map, Function.comp_def]

/-- The generator's busy/idle flag (`getState`/`lock`/`unlock` of the
`GenericLogic` base class; the spec's single idle/busy state). -/
inductive ModuleState
  | idle
  | locked
deriving DecidableEq, Repr

/-- Mutable state of a `SequenceGeneratorLogic` instance, restricted to the
fields the sampling engine reads and writes. -/
structure GenState where
  analog_channels : ℕ
  digital_channels : ℕ
  activation_config : List String
  laser_channel : Option String
  amplitude_dict : List (String × ℚ)
  sample_rate : ℚ
  state : ModuleState
  saved_pulse_block_ensembles : List (String × PulseBlockEnsemble)
  saved_pulse_sequences : List (String × PulseSequence)
  current_ensemble : Option PulseBlockEnsemble
  current_sequence : Option PulseSequence
deriving DecidableEq, Repr

/-- Decidable equality of `Except` values, needed to evaluate modelled
results on concrete inputs. -/
instance instDecidableEqExcept {ε α : Type} [DecidableEq ε] [DecidableEq α] :
    DecidableEq (Except ε α) := fun a b =>
  match a, b with
  | .error e1, .error e2 => decidable_of_iff (e1 = e2) (by simp)
  | .error _, .ok _ => isFalse (by simp)
  | .ok _, .error _ => isFalse (by simp)
  | .ok a1, .ok a2 => decidable_of_iff (a1 = a2) (by simp)

/-- Python exceptions that can escape the modelled operations. -/
inductive PyError
  | keyError
  | unboundLocalCreatedFiles
deriving DecidableEq, Repr

/-- Environment of externally supplied callables: the per-name analog math
functions (`SamplingFunctions._math_func`, applied elementwise to the time
array), the `float64 → float32` narrowing, and the format-selected writer
(`SamplesWriteMethods._write_to_file[fmt]`), which returns its created
file names. -/
structure MathEnv where
  mathFunc : String → ℚ → ℚ → ℚ
  float32 : ℚ → ℚ
  writeFn : String → List (List ℚ) → List (List Bool) → ℤ → Bool → Bool → List String

/-- Python `needle in s` substring test. -/
def containsSub (needle s : String) : Bool := (s.splitOn needle).length != 1

/-- `[chnl for chnl in self.activation_config if 'a_ch' in chnl]`. -/
def anaChnlNames (s : GenState) : List String :=
  s.activation_config.filter (containsSub "a_ch")

/-- Association-list lookup used for `amplitude_dict[...]`; the logic
assumes the configured dict covers every active analog channel name. -/
def dictGetQ (d : List (String × ℚ)) (k : String) : ℚ := (d.lookup k).getD 0

/-- `time_arr = (offset_bin + np.arange(element_length_bins)) / self.sample_rate`. -/
def timeArr (offset_bin : ℤ) (len : ℕ) (sample_rate : ℚ) : List ℚ :=
  (List.range len).map (fun i => ((offset_bin : ℚ) + (i : ℚ)) / sample_rate)

/-- The analog rows of one element:
`np.float32(math_func[fn](time_arr, parameters[i]) / amplitude_dict[ana_chnl_names[i]])`
for each `(i, fn)` of `enumerate(pulse_function)`. -/
def elementAnalogSamples (env : MathEnv) (s : GenState) (be : PulseBlockElement)
    (offset_bin : ℤ) (len : ℕ) : List (List ℚ) :=
  (List.range be.pulse_function.length).map (fun i =>
    (timeArr offset_bin len s.sample_rate).map (fun t =>
      env.float32 (env.mathFunc (be.pulse_function.getD i "") t (be.parameters.getD i 0)
        / dictGetQ s.amplitude_dict ((anaChnlNames s).getD i ""))))

/-- The digital rows of one element:
`np.full(element_length_bins, state)` for each `state` of `digital_high`. -/
def elementDigitalSamples (be : PulseBlockElement) (len : ℕ) : List (List Bool) :=
  be.digital_high.map (fun state => List.replicate len state)

/-- One call into the file-writer contract, with the arguments the source
passes to `self._write_to_file[self.waveform_format]`. -/
structure WriterCall where
  dest : String
  analog : List (List ℚ)
  digital : List (List Bool)
  total_samples : ℤ
  is_first_chunk : Bool
  is_last_chunk : Bool
deriving DecidableEq, Repr

/-- Loop state of the block/repetition/element loop of
`sample_pulse_block_ensemble`.  `created_files` is `none` while the
Python local `created_files` is still unbound; `calls` is the trace of
writer calls made so far. -/
structure SampLoop where
  offset_bin : ℤ
  element_count : ℕ
  is_first_chunk : Bool
  analog : List (List ℚ)
  digital : List (List Bool)
  entry_ind : ℤ
  created_files : Option (List String)
  calls : List WriterCall

/-- Row-wise concatenation: writing one element's channel rows after the
already-filled prefix of the preallocated `[channels, number_of_samples]`
arrays at the moving cursor `entry_ind` (all element lengths are
nonnegative in every run considered by the theorems below). -/
def appendRows (acc rows : List (List α)) : List (List α) :=
  List.zipWith (fun a b => a ++ b) acc rows

/-- One iteration of the sampler's element loop.  `chunk_mode` is the
source condition `chunkwise and write_to_file`.  The rotating-frame
offset advance happens after the element is emitted, exactly as in the
source. -/
def sampleStep (env : MathEnv) (s : GenState) (ensemble : PulseBlockEnsemble)
    (chunk_mode : Bool) (number_of_samples : ℤ) (number_of_elements : ℕ)
    (name_tag : String) (st : SampLoop) (p : PulseBlockElement × ℕ) : SampLoop :=
  let element_length_bins := elementLengthBins p.1 p.2 s.sample_rate
  let len := element_length_bins.toNat
  let eAna := elementAnalogSamples env s p.1 st.offset_bin len
  let eDig := elementDigitalSamples p.1 len
  let st1 :=
    if chunk_mode then
      let element_count := st.element_count + 1
      let is_last_chunk := element_count = number_of_elements
      let files := env.writeFn (ensemble.name ++ name_tag) eAna eDig number_of_samples
          st.is_first_chunk is_last_chunk
      { st with
        element_count := element_count
        is_first_chunk := false
        analog := eAna
        digital := eDig
        created_files := some files
        calls := st.calls ++ [⟨ensemble.name ++ name_tag, eAna, eDig, number_of_samples,
                               st.is_first_chunk, is_last_chunk⟩] }
    else
      { st with
        analog := appendRows st.analog eAna
        digital := appendRows st.digital eDig
        entry_ind := st.entry_ind + element_length_bins }
  if ensemble.rotating_frame then { st1 with offset_bin := st1.offset_bin + element_length_bins }
  else st1

/-- Outcome of `sample_pulse_block_ensemble`: the Python return value (or
the exception that escapes), the writer-call trace, the module flag on
exit, and whether `sigSampleEnsembleComplete` was emitted. -/
structure EnsembleSampleOutput where
  result : Except PyError (List (List ℚ) × List (List Bool) × List String × ℤ)
  writerCalls : List WriterCall
  finalState : ModuleState
  completionEmitted : Bool

/-- `sample_pulse_block_ensemble`.  Mirrors the source: lock if idle
(otherwise a sequence sampling is in progress); resolve the ensemble name
(`KeyError` escapes if unknown, leaving the module locked); abort with
`([], [], [''], 0)` on a channel-count mismatch (without unlocking);
otherwise run the analysis pass and the element loop, then return along
one of the three return paths (`not write_to_file` / `chunkwise` / final
single write).  In the first two of those paths the Python local
`created_files` is read by the `return` statement after the unlock and
completion signal, so an unbound `created_files` raises there. -/
def sample_pulse_block_ensemble (env : MathEnv) (s : GenState) (ensemble_name : String)
    (write_to_file chunkwise : Bool) (offset_bin : ℤ) (name_tag : String) :
    EnsembleSampleOutput :=
  let sequence_sampling_in_progress : Bool := s.state = ModuleState.locked
  match s.saved_pulse_block_ensembles.lookup ensemble_name with
  | none =>
      { result := .error .keyError, writerCalls := [], finalState := .locked,
        completionEmitted := false }
  | some ensemble =>
      if s.digital_channels ≠ ensemble.digital_channels
          ∨ s.analog_channels ≠ ensemble.analog_channels then
        { result := .ok ([], [], [""], 0), writerCalls := [], finalState := .locked,
          completionEmitted := false }
      else
        let analysis := analyze_block_ensemble s.sample_rate ensemble
        let chunk_mode := chunkwise && write_to_file
        let init : SampLoop :=
          { offset_bin := offset_bin, element_count := 0, is_first_chunk := true,
            analog := List.replicate ensemble.analog_channels [],
            digital := List.replicate ensemble.digital_channels [],
            entry_ind := 0, created_files := none, calls := [] }
        let loop := (ensembleElems ensemble).foldl
          (sampleStep env s ensemble chunk_mode analysis.number_of_samples
            analysis.number_of_elements name_tag) init
        let exitState : ModuleState :=
          if sequence_sampling_in_progress then .locked else .idle
        if !write_to_file then
          { result := match loop.created_files with
              | none => .error .unboundLocalCreatedFiles
              | some cf => .ok (loop.analog, loop.digital, cf, loop.offset_bin)
            writerCalls := loop.calls
            finalState := exitState
            completionEmitted := !sequence_sampling_in_progress }
        else if chunkwise then
          { result := match loop.created_files with
              | none => .error .unboundLocalCreatedFiles
              | some cf => .ok ([], [], cf, loop.offset_bin)
            writerCalls := loop.calls
            finalState := exitState
            completionEmitted := !sequence_sampling_in_progress }
        else
          let files := env.writeFn (ensemble.name ++ name_tag) loop.analog loop.digital
            analysis.number_of_samples true true
          { result := .ok ([], [], files, loop.offset_bin)
            writerCalls := loop.calls ++ [⟨ensemble.name ++ name_tag, loop.analog, loop.digital,
                                           analysis.number_of_samples, true, true⟩]
            finalState := exitState
            completionEmitted := !sequence_sampling_in_progress }

/-- Reference decomposition: the per-element `(analog rows, digital rows)`
chunks of a traversal, threading the running offset exactly as the
sampler does (advance by the element length iff `rot`). -/
def elementChunksAux (env : MathEnv) (s : GenState) (rot : Bool) :
    ℤ → List (PulseBlockElement × ℕ) → List (List (List ℚ) × List (List Bool))
  | _, [] => []
  | ob, p :: rest =>
      let len := elementLengthBins p.1 p.2 s.sample_rate
      (elementAnalogSamples env s p.1 ob len.toNat, elementDigitalSamples p.1 len.toNat)
        :: elementChunksAux env s rot (if rot then ob + len else ob) rest

/-- The per-element chunks of an ensemble, starting at `offset_bin`. -/
def elementChunks (env : MathEnv) (s : GenState) (e : PulseBlockEnsemble)
    (offset_bin : ℤ) : List (List (List ℚ) × List (List Bool)) :=
  elementChunksAux env s e.rotating_frame offset_bin (ensembleElems e)

/-- Sum of element lengths (in bins, as signed machine integers) of a
traversal. -/
def sumLens (sample_rate : ℚ) (l : List (PulseBlockElement × ℕ)) : ℤ :=
  (l.map (fun p => elementLengthBins p.1 p.2 sample_rate)).sum

/-- Concatenating per-channel rows of a chunk list into `n` monolithic rows. -/
def concatRows (n : ℕ) (chunks : List (List (List α))) : List (List α) :=
  chunks.foldl appendRows (List.replicate n [])

/-- One loop iteration advances the offset by the element length iff the
ensemble preserves the rotating frame, in either write mode. -/
theorem sampleStep_offset (env : MathEnv) (s : GenState) (e : PulseBlockEnsemble)
    (cm : Bool) (ns : ℤ) (ne : ℕ) (tag : String) (st : SampLoop)
    (p : PulseBlockElement × ℕ) :
    (sampleStep env s e cm ns ne tag st p).offset_bin
      = st.offset_bin + (if e.rotating_frame then elementLengthBins p.1 p.2 s.sample_rate else 0) := by
  cases hc : cm <;> cases hr : e.rotating_frame <;> simp [sampleStep, hc, hr]

/-- The element loop advances the offset by the traversal's total bin count
iff the rotating frame is preserved. -/
theorem foldl_offset (env : MathEnv) (s : GenState) (e : PulseBlockEnsemble)
    (cm : Bool) (ns : ℤ) (ne : ℕ) (tag : String)
    (l : List (PulseBlockElement × ℕ)) (st : SampLoop) :
    (l.foldl (sampleStep env s e cm ns ne tag) st).offset_bin
      = st.offset_bin + (if e.rotating_frame then sumLens s.sample_rate l else 0) := by
  induction l generalizing st with
  | nil => simp [sumLens]
  | cons p rest ih =>
      rw [List.foldl_cons, ih, sampleStep_offset]
      cases hr : e.rotating_frame <;> simp [sumLens, hr] <;> ring

/-- In chunked mode, the writer-call trace of the loop appends exactly the
per-element chunks, computed at the running offsets. -/
theorem foldl_calls_chunk (env : MathEnv) (s : GenState) (e : PulseBlockEnsemble)
    (ns : ℤ) (ne : ℕ) (tag : String)
    (l : List (PulseBlockElement × ℕ)) (st : SampLoop) :
    ((l.foldl (sampleStep env s e true ns ne tag) st).calls).map
        (fun c => (c.analog, c.digital))
      = st.calls.map (fun c => (c.analog, c.digital))
        ++ elementChunksAux env s e.rotating_frame st.offset_bin l := by
  induction l generalizing st with
  | nil => simp [elementChunksAux]
  | cons p rest ih =>
      rw [List.foldl_cons, ih]
      cases hr : e.rotating_frame <;>
        simp [sampleStep, hr, elementChunksAux, List.append_assoc]

/-- In monolithic mode the loop makes no writer call. -/
theorem foldl_calls_mono (env : MathEnv) (s : GenState) (e : PulseBlockEnsemble)
    (ns : ℤ) (ne : ℕ) (tag : String)
    (l : List (PulseBlockElement × ℕ)) (st : SampLoop) :
    (l.foldl (sampleStep env s e false ns ne tag) st).calls = st.calls := by
  induction l generalizing st with
  | nil => rfl
  | cons p rest ih =>
      rw [List.foldl_cons, ih]
      cases hr : e.rotating_frame <;> simp [sampleStep, hr]

/-- In monolithic mode the loop leaves `created_files` untouched. -/
theorem foldl_created_mono (env : MathEnv) (s : GenState) (e : PulseBlockEnsemble)
    (ns : ℤ) (ne : ℕ) (tag : String)
    (l : List (PulseBlockElement × ℕ)) (st : SampLoop) :
    (l.foldl (sampleStep env s e false ns ne tag) st).created_files = st.created_files := by
  induction l generalizing st with
  | nil => rfl
  | cons p rest ih =>
      rw [List.foldl_cons, ih]
      cases hr : e.rotating_frame <;> simp [sampleStep, hr]

/-- In chunked mode, after at least one element `created_files` is bound. -/
theorem foldl_created_chunk (env : MathEnv) (s : GenState) (e : PulseBlockEnsemble)
    (ns : ℤ) (ne : ℕ) (tag : String)
    (l : List (PulseBlockElement × ℕ)) (st : SampLoop) :
    (l.foldl (sampleStep env s e true ns ne tag) st).created_files.isSome
      = (st.created_files.isSome || !l.isEmpty) := by
  induction l generalizing st with
  | nil => simp
  | cons p rest ih =>
      rw [List.foldl_cons, ih]
      cases hr : e.rotating_frame <;> simp [sampleStep, hr]

/-- In monolithic mode the loop accumulates the per-element chunks into the
preallocated rows by row-wise concatenation. -/
theorem foldl_rows_mono (env : MathEnv) (s : GenState) (e : PulseBlockEnsemble)
    (ns : ℤ) (ne : ℕ) (tag : String)
    (l : List (PulseBlockElement × ℕ)) (st : SampLoop) :
    (l.foldl (sampleStep env s e false ns ne tag) st).analog
        = ((elementChunksAux env s e.rotating_frame st.offset_bin l).map Prod.fst).foldl
            appendRows st.analog
      ∧ (l.foldl (sampleStep env s e false ns ne tag) st).digital
        = ((elementChunksAux env s e.rotating_frame st.offset_bin l).map Prod.snd).foldl
            appendRows st.digital := by
  induction l generalizing st with
  | nil => exact ⟨rfl, rfl⟩
  | cons p rest ih =>
      rw [List.foldl_cons]
      constructor
      · rw [(ih _).1]
        cases hr : e.rotating_frame <;> simp [sampleStep, hr, elementChunksAux]
      · rw [(ih _).2]
        cases hr : e.rotating_frame <;> simp [sampleStep, hr, elementChunksAux]

/-- The `new_offset_bin` component of a sampling result (`none` when the
call raised). -/
def retOffset (o : EnsembleSampleOutput) : Option ℤ :=
  match o.result with
  | .ok r => some r.2.2.2
  | .error _ => none

/-- The `created_files` component of a sampling result. -/
def retCreatedFiles (o : EnsembleSampleOutput) : Option (List String) :=
  match o.result with
  | .ok r => some r.2.2.1
  | .error _ => none

/-- Monolithic write mode (`write_to_file = true`, `chunkwise = false`):
the call returns `([], [], files, final offset)` and makes exactly one
writer call, whose arrays are the row-wise concatenation of the
per-element chunks. -/
theorem sample_mono_write (env : MathEnv) (s : GenState) (ename : String)
    (ob : ℤ) (tag : String) (e : PulseBlockEnsemble)
    (hlook : s.saved_pulse_block_ensembles.lookup ename = some e)
    (hdig : s.digital_channels = e.digital_channels)
    (hana : s.analog_channels = e.analog_channels) :
    (sample_pulse_block_ensemble env s ename true false ob tag).result
      = .ok ([], [],
          env.writeFn (e.name ++ tag)
            (concatRows e.analog_channels ((elementChunks env s e ob).map Prod.fst))
            (concatRows e.digital_channels ((elementChunks env s e ob).map Prod.snd))
            (analyze_block_ensemble s.sample_rate e).number_of_samples true true,
          ob + (if e.rotating_frame then sumLens s.sample_rate (ensembleElems e) else 0))
  ∧ (sample_pulse_block_ensemble env s ename true false ob tag).writerCalls
      = [⟨e.name ++ tag,
          concatRows e.analog_channels ((elementChunks env s e ob).map Prod.fst),
          concatRows e.digital_channels ((elementChunks env s e ob).map Prod.snd),
          (analyze_block_ensemble s.sample_rate e).number_of_samples, true, true⟩] := by
  have hcond : ¬ (s.digital_channels ≠ e.digital_channels
      ∨ s.analog_channels ≠ e.analog_channels) := by
    push_neg
    exact ⟨hdig, hana⟩
  have hrows := foldl_rows_mono env s e
    (analyze_block_ensemble s.sample_rate e).number_of_samples
    (analyze_block_ensemble s.sample_rate e).number_of_elements tag (ensembleElems e)
    { offset_bin := ob, element_count := 0, is_first_chunk := true,
      analog := List.replicate e.analog_channels [],
      digital := List.replicate e.digital_channels [],
      entry_ind := 0, created_files := none, calls := [] }
  have hoff := foldl_offset env s e false
    (analyze_block_ensemble s.sample_rate e).number_of_samples
    (analyze_block_ensemble s.sample_rate e).number_of_elements tag (ensembleElems e)
    { offset_bin := ob, element_count := 0, is_first_chunk := true,
      analog := List.replicate e.analog_channels [],
      digital := List.replicate e.digital_channels [],
      entry_ind := 0, created_files := none, calls := [] }
  have hcalls := foldl_calls_mono env s e
    (analyze_block_ensemble s.sample_rate e).number_of_samples
    (analyze_block_ensemble s.sample_rate e).number_of_elements tag (ensembleElems e)
    { offset_bin := ob, element_count := 0, is_first_chunk := true,
      analog := List.replicate e.analog_channels [],
      digital := List.replicate e.digital_channels [],
      entry_ind := 0, created_files := none, calls := [] }
  simp only [sample_pulse_block_ensemble, hlook, hcond, if_false, Bool.and_true,
    Bool.and_false, Bool.not_true, Bool.false_eq_true, if_true, ite_false, ite_true]
  simp only [elementChunks, concatRows] at *
  constructor
  · simp [hrows.1, hrows.2, hoff]
  · simp [hrows.1, hrows.2, hcalls]

/-- Chunked write mode (`write_to_file = true`, `chunkwise = true`) on a
nonempty traversal: the writer-call trace carries exactly the
per-element chunks, and the returned offset is the loop's final offset. -/
theorem sample_chunk_write (env : MathEnv) (s : GenState) (ename : String)
    (ob : ℤ) (tag : String) (e : PulseBlockEnsemble)
    (hlook : s.saved_pulse_block_ensembles.lookup ename = some e)
    (hdig : s.digital_channels = e.digital_channels)
    (hana : s.analog_channels = e.analog_channels)
    (hne : ensembleElems e ≠ []) :
    (sample_pulse_block_ensemble env s ename true true ob tag).writerCalls.map
        (fun c => (c.analog, c.digital))
      = elementChunks env s e ob
  ∧ retOffset (sample_pulse_block_ensemble env s ename true true ob tag)
      = some (ob + (if e.rotating_frame then sumLens s.sample_rate (ensembleElems e) else 0)) := by
  have hcond : ¬ (s.digital_channels ≠ e.digital_channels
      ∨ s.analog_channels ≠ e.analog_channels) := by
    push_neg
    exact ⟨hdig, hana⟩
  have hcalls := foldl_calls_chunk env s e
    (analyze_block_ensemble s.sample_rate e).number_of_samples
    (analyze_block_ensemble s.sample_rate e).number_of_elements tag (ensembleElems e)
    { offset_bin := ob, element_count := 0, is_first_chunk := true,
      analog := List.replicate e.analog_channels [],
      digital := List.replicate e.digital_channels [],
      entry_ind := 0, created_files := none, calls := [] }
  have hoff := foldl_offset env s e true
    (analyze_block_ensemble s.sample_rate e).number_of_samples
    (analyze_block_ensemble s.sample_rate e).number_of_elements tag (ensembleElems e)
    { offset_bin := ob, element_count := 0, is_first_chunk := true,
      analog := List.replicate e.analog_channels [],
      digital := List.replicate e.digital_channels [],
      entry_ind := 0, created_files := none, calls := [] }
  have hcf := foldl_created_chunk env s e
    (analyze_block_ensemble s.sample_rate e).number_of_samples
    (analyze_block_ensemble s.sample_rate e).number_of_elements tag (ensembleElems e)
    { offset_bin := ob, element_count := 0, is_first_chunk := true,
      analog := List.replicate e.analog_channels [],
      digital := List.replicate e.digital_channels [],
      entry_ind := 0, created_files := none, calls := [] }
  have hne' : (ensembleElems e).isEmpty = false := by
    cases h : ensembleElems e with
    | nil => exact absurd h hne
    | cons a l => rfl
  simp only [hne', Option.isSome_none, Bool.false_or, Bool.not_false] at hcf
  obtain ⟨cf, hcfv⟩ := Option.isSome_iff_exists.mp hcf
  simp only [sample_pulse_block_ensemble, hlook, hcond, if_false, Bool.and_self,
    Bool.not_true, Bool.false_eq_true, ite_false, ite_true]
  constructor
  · simpa [elementChunks] using hcalls
  · simp [retOffset, hcfv, hoff]

/-- C1 (amended): for every ensemble with `rotating_frame = true` whose
traversal contains at least one element, sampling it via
`sample_pulse_block_ensemble` in monolithic mode (`chunkwise = false`) and
in chunked mode (`chunkwise = true`) from the same initial `offset_bin`
yields the same returned `new_offset_bin`, and, element for element in
traversal order, identical analog and digital sample values: the chunked
writer calls carry exactly the per-element chunks, and the monolithic
arrays are the row-wise concatenation of those same chunks.  The
nonemptiness restriction is forced by the code: on an ensemble with no
elements the chunked return raises `UnboundLocalError` (`created_files`
unbound) while the monolithic mode returns normally — see the
counterexample to the original claim. -/
theorem claim_C1_phase_continuity (env : MathEnv) (s : GenState) (ename : String)
    (ob : ℤ) (tag : String) (e : PulseBlockEnsemble)
    (hlook : s.saved_pulse_block_ensembles.lookup ename = some e)
    (hrot : e.rotating_frame = true)
    (hdig : s.digital_channels = e.digital_channels)
    (hana : s.analog_channels = e.analog_channels)
    (hne : ensembleElems e ≠ []) :
    retOffset (sample_pulse_block_ensemble env s ename true false ob tag)
        = some (ob + sumLens s.sample_rate (ensembleElems e))
  ∧ retOffset (sample_pulse_block_ensemble env s ename true true ob tag)
        = some (ob + sumLens s.sample_rate (ensembleElems e))
  ∧ (sample_pulse_block_ensemble env s ename true true ob tag).writerCalls.map
        (fun c => (c.analog, c.digital)) = elementChunks env s e ob
  ∧ (sample_pulse_block_ensemble env s ename true false ob tag).writerCalls.map
        (fun c => (c.analog, c.digital))
      = [(concatRows e.analog_channels ((elementChunks env s e ob).map Prod.fst),
          concatRows e.digital_channels ((elementChunks env s e ob).map Prod.snd))] := by
  obtain ⟨hresM, hcallsM⟩ := sample_mono_write env s ename ob tag e hlook hdig hana
  obtain ⟨hcallsC, hoffC⟩ := sample_chunk_write env s ename ob tag e hlook hdig hana hne
  refine ⟨?_, ?_, hcallsC, ?_⟩
  · simp [retOffset, hresM, hrot]
  · simpa [hrot] using hoffC
  · simp [hcallsM]

/-- Concrete writer/math environment used by the witnesses. -/
def exEnv : MathEnv :=
  { mathFunc := fun _ t p => t + p
    float32 := fun q => q
    writeFn := fun nm _ _ _ _ _ => [nm] }

/-- Concrete element: `init_length_s = 1/2`, `increment_s = 1/4`, two
digital channels, one analog channel. -/
def exElement : PulseBlockElement :=
  { init_length_s := 1/2, increment_s := 1/4, digital_high := [true, false],
    pulse_function := ["Sin"], parameters := [3] }

/-- Concrete block holding the one element. -/
def exBlock : PulseBlock := { name := "B", element_list := [exElement] }

/-- Concrete rotating-frame ensemble: the block played twice (`reps = 1`),
so at `sample_rate = 4` the element lengths are 2 and 3 bins. -/
def exEnsemble : PulseBlockEnsemble :=
  { name := "E", block_list := [(exBlock, 1)], analog_channels := 1, digital_channels := 2,
    rotating_frame := true, sample_rate := none, amplitude_dict := none,
    activation_config := none, laser_channel := none }

/-- Concrete generator state holding `exEnsemble` under name `"E"`. -/
def exState : GenState :=
  { analog_channels := 1, digital_channels := 2,
    activation_config := ["a_ch1", "d_ch1", "d_ch2"], laser_channel := some "d_ch1",
    amplitude_dict := [("a_ch1", 1/2)], sample_rate := 4, state := .idle,
    saved_pulse_block_ensembles := [("E", exEnsemble)],
    saved_pulse_sequences := [], current_ensemble := none, current_sequence := none }

/-- Witness for C1 at the concrete rotating-frame ensemble, from
`offset_bin = 7`. -/
theorem claim_C1_phase_continuity_witness :
    exState.saved_pulse_block_ensembles.lookup "E" = some exEnsemble
  ∧ exEnsemble.rotating_frame = true
  ∧ exState.digital_channels = exEnsemble.digital_channels
  ∧ exState.analog_channels = exEnsemble.analog_channels
  ∧ ensembleElems exEnsemble ≠ []
  ∧ (retOffset (sample_pulse_block_ensemble exEnv exState "E" true false 7 "")
        = some (7 + sumLens exState.sample_rate (ensembleElems exEnsemble))
    ∧ retOffset (sample_pulse_block_ensemble exEnv exState "E" true true 7 "")
        = some (7 + sumLens exState.sample_rate (ensembleElems exEnsemble))
    ∧ (sample_pulse_block_ensemble exEnv exState "E" true true 7 "").writerCalls.map
        (fun c => (c.analog, c.digital)) = elementChunks exEnv exState exEnsemble 7
    ∧ (sample_pulse_block_ensemble exEnv exState "E" true false 7 "").writerCalls.map
        (fun c => (c.analog, c.digital))
      = [(concatRows exEnsemble.analog_channels
            ((elementChunks exEnv exState exEnsemble 7).map Prod.fst),
          concatRows exEnsemble.digital_channels
            ((elementChunks exEnv exState exEnsemble 7).map Prod.snd))]) :=
  ⟨rfl, rfl, rfl, rfl, by decide,
    claim_C1_phase_continuity exEnv exState "E" 7 "" exEnsemble rfl rfl rfl rfl
      (by decide)⟩

/-- Closed form of the running offset threaded through the chunk
decomposition: the `j`-th element starts at the initial offset plus (iff
rotating) the sum of the preceding element lengths. -/
theorem elementChunksAux_getElem (env : MathEnv) (s : GenState) (rot : Bool)
    (ob : ℤ) (l : List (PulseBlockElement × ℕ)) (j : ℕ) (hj : j < l.length) :
    (elementChunksAux env s rot ob l)[j]? =
      some (elementAnalogSamples env s (l.get ⟨j, hj⟩).1
              (ob + if rot then sumLens s.sample_rate (l.take j) else 0)
              (elementLengthBins (l.get ⟨j, hj⟩).1 (l.get ⟨j, hj⟩).2 s.sample_rate).toNat,
            elementDigitalSamples (l.get ⟨j, hj⟩).1
              (elementLengthBins (l.get ⟨j, hj⟩).1 (l.get ⟨j, hj⟩).2 s.sample_rate).toNat) := by
  induction l generalizing ob j with
  | nil => exact absurd hj (by simp)
  | cons p rest ih =>
      cases j with
      | zero => cases rot <;> simp [elementChunksAux, sumLens]
      | succ j =>
          have hj' : j < rest.length := by simpa using hj
          rw [elementChunksAux]
          rw [List.getElem?_cons_succ]
          rw [ih _ j hj']
          cases rot <;> simp [sumLens] <;> ring_nf

/-- With nonnegative element lengths, the signed total equals the emitted
(unsigned) total. -/
theorem sumLens_toNat (rate : ℚ) (l : List (PulseBlockElement × ℕ))
    (h : ∀ p ∈ l, 0 ≤ elementLengthBins p.1 p.2 rate) :
    ((l.map (fun p => (elementLengthBins p.1 p.2 rate).toNat)).sum : ℤ)
      = sumLens rate l := by
  induction l with
  | nil => simp [sumLens]
  | cons p rest ih =>
      have hp := h p (by simp)
      have hrest := ih (fun q hq => h q (by simp [hq]))
      simp only [sumLens, List.map_cons, List.sum_cons] at *
      rw [Nat.cast_add, Int.toNat_of_nonneg hp, hrest]

/-- C2 (amended): during `sample_pulse_block_ensemble`, on an ensemble
whose traversal contains at least one element (with nonnegative element
lengths), each element's time vector is
`t[i] = (offset_bin + i) / sample_rate` at the running `offset_bin`: the
`j`-th emitted element is sampled at start offset `offset_bin` plus (iff
`rotating_frame`) the lengths of the preceding elements.  When
`rotating_frame` is true the returned `new_offset_bin` is the input plus
the total emitted bin count; when false it equals the input unchanged,
in both monolithic and chunked write modes.  The nonemptiness
restriction is forced by the code: on an ensemble with no elements the
chunked mode raises `UnboundLocalError` instead of returning any
`new_offset_bin` — see the counterexample to the original claim. -/
theorem claim_C2_running_offset (env : MathEnv) (s : GenState) (ename : String)
    (ob : ℤ) (tag : String) (e : PulseBlockEnsemble) (chunkwise : Bool)
    (hlook : s.saved_pulse_block_ensembles.lookup ename = some e)
    (hdig : s.digital_channels = e.digital_channels)
    (hana : s.analog_channels = e.analog_channels)
    (hne : ensembleElems e ≠ [])
    (hpos : ∀ p ∈ ensembleElems e, 0 ≤ elementLengthBins p.1 p.2 s.sample_rate) :
    (e.rotating_frame = true →
      retOffset (sample_pulse_block_ensemble env s ename true chunkwise ob tag)
        = some (ob + (((ensembleElems e).map
            (fun p => (elementLengthBins p.1 p.2 s.sample_rate).toNat)).sum : ℤ)))
  ∧ (e.rotating_frame = false →
      retOffset (sample_pulse_block_ensemble env s ename true chunkwise ob tag)
        = some ob)
  ∧ (sample_pulse_block_ensemble env s ename true true ob tag).writerCalls.map
        (fun c => (c.analog, c.digital)) = elementChunks env s e ob
  ∧ (∀ j (hj : j < (ensembleElems e).length),
      (elementChunks env s e ob)[j]? =
        some (elementAnalogSamples env s ((ensembleElems e).get ⟨j, hj⟩).1
                (ob + if e.rotating_frame then
                    sumLens s.sample_rate ((ensembleElems e).take j) else 0)
                (elementLengthBins ((ensembleElems e).get ⟨j, hj⟩).1
                  ((ensembleElems e).get ⟨j, hj⟩).2 s.sample_rate).toNat,
              elementDigitalSamples ((ensembleElems e).get ⟨j, hj⟩).1
                (elementLengthBins ((ensembleElems e).get ⟨j, hj⟩).1
                  ((ensembleElems e).get ⟨j, hj⟩).2 s.sample_rate).toNat)) := by
  have hoffs : retOffset (sample_pulse_block_ensemble env s ename true chunkwise ob tag)
      = some (ob + (if e.rotating_frame then sumLens s.sample_rate (ensembleElems e) else 0)) := by
    cases chunkwise with
    | false =>
        obtain ⟨hresM, _⟩ := sample_mono_write env s ename ob tag e hlook hdig hana
        simp [retOffset, hresM]
    | true => exact (sample_chunk_write env s ename ob tag e hlook hdig hana hne).2
  refine ⟨?_, ?_, (sample_chunk_write env s ename ob tag e hlook hdig hana hne).1, ?_⟩
  · intro hrot
    rw [hoffs, hrot, if_pos rfl, sumLens_toNat s.sample_rate _ hpos]
  · intro hrot
    rw [hoffs, hrot]
    simp
  · intro j hj
    exact elementChunksAux_getElem env s e.rotating_frame ob (ensembleElems e) j hj

/-- The traversal of the concrete ensemble: its single-element block played
twice, repetition indices 0 and 1. -/
theorem exEnsemble_elems : ensembleElems exEnsemble = [(exElement, 0), (exElement, 1)] := rfl

/-- The concrete element lengths are nonnegative (2 and 3 bins). -/
theorem exEnsemble_lens_nonneg :
    ∀ p ∈ ensembleElems exEnsemble, 0 ≤ elementLengthBins p.1 p.2 exState.sample_rate := by
  rw [exEnsemble_elems]
  intro p hp
  rcases List.mem_cons.mp hp with h | hp'
  · subst h
    norm_num [elementLengthBins, rintQ, exElement, exState]
  · rcases List.mem_cons.mp hp' with h | h
    · subst h
      norm_num [elementLengthBins, rintQ, exElement, exState]
    · exact absurd h (List.not_mem_nil _)

/-- Witness for C2 at the concrete rotating-frame ensemble, monolithic
mode, from `offset_bin = 7`. -/
theorem claim_C2_running_offset_witness :
    (ensembleElems exEnsemble ≠ []
      ∧ ∀ p ∈ ensembleElems exEnsemble, 0 ≤ elementLengthBins p.1 p.2 exState.sample_rate)
  ∧ ((exEnsemble.rotating_frame = true →
      retOffset (sample_pulse_block_ensemble exEnv exState "E" true false 7 "")
        = some (7 + (((ensembleElems exEnsemble).map
            (fun p => (elementLengthBins p.1 p.2 exState.sample_rate).toNat)).sum : ℤ)))
    ∧ (exEnsemble.rotating_frame = false →
        retOffset (sample_pulse_block_ensemble exEnv exState "E" true false 7 "")
          = some 7)
    ∧ (sample_pulse_block_ensemble exEnv exState "E" true true 7 "").writerCalls.map
          (fun c => (c.analog, c.digital)) = elementChunks exEnv exState exEnsemble 7
    ∧ (∀ j (hj : j < (ensembleElems exEnsemble).length),
        (elementChunks exEnv exState exEnsemble 7)[j]? =
          some (elementAnalogSamples exEnv exState ((ensembleElems exEnsemble).get ⟨j, hj⟩).1
                  (7 + if exEnsemble.rotating_frame then
                      sumLens exState.sample_rate ((ensembleElems exEnsemble).take j) else 0)
                  (elementLengthBins ((ensembleElems exEnsemble).get ⟨j, hj⟩).1
                    ((ensembleElems exEnsemble).get ⟨j, hj⟩).2 exState.sample_rate).toNat,
                elementDigitalSamples ((ensembleElems exEnsemble).get ⟨j, hj⟩).1
                  (elementLengthBins ((ensembleElems exEnsemble).get ⟨j, hj⟩).1
                    ((ensembleElems exEnsemble).get ⟨j, hj⟩).2 exState.sample_rate).toNat))) :=
  ⟨⟨by decide, exEnsemble_lens_nonneg⟩,
    claim_C2_running_offset exEnv exState "E" 7 "" exEnsemble false rfl rfl rfl
      (by decide) exEnsemble_lens_nonneg⟩

/-- Concrete rotating-frame ensemble with an empty `block_list`: its
traversal contains no elements, and its channel counts match the
generator configuration. -/
def exEnsembleEmpty : PulseBlockEnsemble :=
  { name := "EZ", block_list := [], analog_channels := 1, digital_channels := 2,
    rotating_frame := true, sample_rate := none, amplitude_dict := none,
    activation_config := none, laser_channel := none }

/-- Concrete idle generator state holding `exEnsembleEmpty` under "EZ". -/
def exStateEmpty : GenState :=
  { exState with saved_pulse_block_ensembles := [("EZ", exEnsembleEmpty)] }

/-- Counterexample to C1 as stated: for the rotating-frame ensemble with
no elements, chunked write raises `UnboundLocalError` (the local
`created_files` is never assigned before the `elif chunkwise:` return
reads it) while monolithic write returns normally with the caller's
`offset_bin`, so the two modes do not yield the same returned
`new_offset_bin`. -/
theorem claim_C1_counterexample :
    exEnsembleEmpty.rotating_frame = true
  ∧ exStateEmpty.analog_channels = exEnsembleEmpty.analog_channels
  ∧ exStateEmpty.digital_channels = exEnsembleEmpty.digital_channels
  ∧ (sample_pulse_block_ensemble exEnv exStateEmpty "EZ" true true 7 "").result
      = .error .unboundLocalCreatedFiles
  ∧ retOffset (sample_pulse_block_ensemble exEnv exStateEmpty "EZ" true false 7 "")
      = some 7
  ∧ retOffset (sample_pulse_block_ensemble exEnv exStateEmpty "EZ" true true 7 "")
      ≠ retOffset (sample_pulse_block_ensemble exEnv exStateEmpty "EZ" true false 7 "") := by
  refine ⟨rfl, rfl, rfl, ?_, ?_, ?_⟩ <;> decide

/-- Counterexample to C2 as stated: for the ensemble with no elements and
`chunkwise = true`, the code raises `UnboundLocalError` instead of
returning `new_offset_bin = offset_bin + 0` (the input plus the total
emitted bin count, here zero), so the claim's returned-offset assertion
fails on an input it quantifies over. -/
theorem claim_C2_counterexample :
    (sample_pulse_block_ensemble exEnv exStateEmpty "EZ" true true 7 "").result
      = .error .unboundLocalCreatedFiles
  ∧ retOffset (sample_pulse_block_ensemble exEnv exStateEmpty "EZ" true true 7 "")
      ≠ some (7 + (((ensembleElems exEnsembleEmpty).map
          (fun p => (elementLengthBins p.1 p.2 exStateEmpty.sample_rate).toNat)).sum : ℤ)) := by
  refine ⟨?_, ?_⟩ <;> decide

/-- The analyzer's `number_of_samples` is the signed sum of the traversal's
element lengths. -/
theorem analysis_samples_eq_sumLens (rate : ℚ) (e : PulseBlockEnsemble) :
    (analyze_block_ensemble rate e).number_of_samples = sumLens rate (ensembleElems e) := by
  have h := analyze_foldl_closed rate e.block_list [] 0
  have : sumLens rate (ensembleElems e)
      = ((ensembleElems e).map (fun p => elementLengthBins p.1 p.2 rate)).sum := rfl
  rw [this, ensembleElems_map_len]
  simp [analyze_block_ensemble, h]

/-- Every analog row of an element has one entry per time bin. -/
theorem elementAnalog_shape (env : MathEnv) (s : GenState) (be : PulseBlockElement)
    (ob : ℤ) (len : ℕ) :
    (elementAnalogSamples env s be ob len).map List.length
      = List.replicate be.pulse_function.length len := by
  simp [elementAnalogSamples, timeArr, List.map_map, Function.comp_def,
    List.map_const']

/-- Every digital row of an element has one entry per time bin. -/
theorem elementDigital_shape (be : PulseBlockElement) (len : ℕ) :
    (elementDigitalSamples be len).map List.length
      = List.replicate be.digital_high.length len := by
  simp [elementDigitalSamples, List.map_map, Function.comp_def, List.map_const']

/-- Shape trace of the chunk decomposition: one chunk per traversal entry,
with one analog row per `pulse_function` entry and one digital row per
`digital_high` entry, all rows as long as the element. -/
theorem elementChunksAux_shape (env : MathEnv) (s : GenState) (rot : Bool)
    (ob : ℤ) (l : List (PulseBlockElement × ℕ)) :
    (elementChunksAux env s rot ob l).map
        (fun c => (c.1.map List.length, c.2.map List.length))
      = l.map (fun p =>
          (List.replicate p.1.pulse_function.length
            (elementLengthBins p.1 p.2 s.sample_rate).toNat,
           List.replicate p.1.digital_high.length
            (elementLengthBins p.1 p.2 s.sample_rate).toNat)) := by
  induction l generalizing ob with
  | nil => rfl
  | cons p rest ih =>
      simp only [elementChunksAux, List.map_cons, ih, elementAnalog_shape,
        elementDigital_shape]

/-- Appending one chunk's rows to equally long accumulated rows adds the
chunk length to every row. -/
theorem appendRows_shape (A : ℕ) :
    ∀ (acc rows : List (List α)) (m len : ℕ),
      acc.map List.length = List.replicate A m →
      rows.map List.length = List.replicate A len →
      (appendRows acc rows).map List.length = List.replicate A (m + len) := by
  induction A with
  | zero =>
      intro acc rows m len hacc hrows
      rw [List.replicate_zero, List.map_eq_nil_iff] at hacc hrows
      subst hacc
      subst hrows
      rfl
  | succ A ih =>
      intro acc rows m len hacc hrows
      cases acc with
      | nil => simp at hacc
      | cons a acc' =>
          cases rows with
          | nil => simp at hrows
          | cons r rows' =>
              simp only [List.map_cons, List.replicate_succ, List.cons.injEq] at hacc hrows
              simp only [appendRows, List.zipWith_cons_cons, List.map_cons,
                List.replicate_succ, List.cons.injEq, List.length_append,
                hacc.1, hrows.1]
              exact ⟨trivial, ih acc' rows' m len hacc.2 hrows.2⟩

/-- Concatenating chunks whose rows are `A × len_j` rectangles yields `A`
rows of the summed length. -/
theorem concatRows_shape (A : ℕ) (chunks : List (List (List α))) (lens : List ℕ)
    (h : chunks.map (fun c => c.map List.length) = lens.map (fun len => List.replicate A len)) :
    (concatRows A chunks).map List.length = List.replicate A lens.sum := by
  suffices hgen : ∀ (chunks : List (List (List α))) (lens : List ℕ) (acc : List (List α)) (m : ℕ),
      acc.map List.length = List.replicate A m →
      chunks.map (fun c => c.map List.length) = lens.map (fun len => List.replicate A len) →
      (chunks.foldl appendRows acc).map List.length = List.replicate A (m + lens.sum) by
    have h0 : (List.replicate A ([] : List α)).map List.length = List.replicate A 0 := by
      simp [List.map_replicate]
    simpa using hgen chunks lens (List.replicate A []) 0 h0 h
  intro chunks
  induction chunks with
  | nil =>
      intro lens acc m hacc h
      cases lens with
      | nil => simpa using hacc
      | cons a b => simp at h
  | cons c cs ih =>
      intro lens acc m hacc h
      cases lens with
      | nil => simp at h
      | cons len lens' =>
          simp only [List.map_cons, List.cons.injEq] at h
          rw [List.foldl_cons]
          have := ih lens' (appendRows acc c) (m + len)
            (appendRows_shape A acc c m len hacc h.1) h.2
          rw [this, List.sum_cons]
          ring_nf

/-- C3: for every ensemble, the `total_samples` computed by the analysis
pass equals exactly the number of samples emitted by
`sample_pulse_block_ensemble`, in both chunked and monolithic modes: the
analyzer total is the traversal's length sum; in chunked mode each writer
call carries one `length_bins`-long row per channel for its element; in
monolithic mode the single writer call carries rows of exactly
`total_samples` entries. -/
theorem claim_C3_count_consistency (env : MathEnv) (s : GenState) (ename : String)
    (ob : ℤ) (tag : String) (e : PulseBlockEnsemble)
    (hlook : s.saved_pulse_block_ensembles.lookup ename = some e)
    (hdig : s.digital_channels = e.digital_channels)
    (hana : s.analog_channels = e.analog_channels)
    (hne : ensembleElems e ≠ [])
    (hpos : ∀ p ∈ ensembleElems e, 0 ≤ elementLengthBins p.1 p.2 s.sample_rate)
    (hrows : ∀ p ∈ ensembleElems e,
        p.1.pulse_function.length = e.analog_channels
      ∧ p.1.digital_high.length = e.digital_channels) :
    (analyze_block_ensemble s.sample_rate e).number_of_samples
        = sumLens s.sample_rate (ensembleElems e)
  ∧ (((ensembleElems e).map
        (fun p => (elementLengthBins p.1 p.2 s.sample_rate).toNat)).sum : ℤ)
        = (analyze_block_ensemble s.sample_rate e).number_of_samples
  ∧ (sample_pulse_block_ensemble env s ename true true ob tag).writerCalls.map
        (fun c => (c.analog.map List.length, c.digital.map List.length))
      = (ensembleElems e).map (fun p =>
          (List.replicate e.analog_channels (elementLengthBins p.1 p.2 s.sample_rate).toNat,
           List.replicate e.digital_channels (elementLengthBins p.1 p.2 s.sample_rate).toNat))
  ∧ (sample_pulse_block_ensemble env s ename true false ob tag).writerCalls.map
        (fun c => (c.analog.map List.length, c.digital.map List.length))
      = [(List.replicate e.analog_channels
            (analyze_block_ensemble s.sample_rate e).number_of_samples.toNat,
          List.replicate e.digital_channels
            (analyze_block_ensemble s.sample_rate e).number_of_samples.toNat)] := by
  have c1 := analysis_samples_eq_sumLens s.sample_rate e
  have c2 : (((ensembleElems e).map
      (fun p => (elementLengthBins p.1 p.2 s.sample_rate).toNat)).sum : ℤ)
      = (analyze_block_ensemble s.sample_rate e).number_of_samples := by
    rw [c1, sumLens_toNat s.sample_rate _ hpos]
  have hshape := elementChunksAux_shape env s e.rotating_frame ob (ensembleElems e)
  have hanaShape : ((elementChunks env s e ob).map Prod.fst).map
      (fun c => c.map List.length)
      = ((ensembleElems e).map
          (fun p => (elementLengthBins p.1 p.2 s.sample_rate).toNat)).map
          (fun len => List.replicate e.analog_channels len) := by
    have h1 : ((elementChunks env s e ob).map Prod.fst).map (fun c => c.map List.length)
        = ((elementChunks env s e ob).map
            (fun c => (c.1.map List.length, c.2.map List.length))).map Prod.fst := by
      simp [List.map_map]
    rw [h1, elementChunks, hshape, List.map_map, List.map_map]
    refine List.map_congr_left ?_
    intro p hp
    simp [(hrows p hp).1]
  have hdigShape : ((elementChunks env s e ob).map Prod.snd).map
      (fun c => c.map List.length)
      = ((ensembleElems e).map
          (fun p => (elementLengthBins p.1 p.2 s.sample_rate).toNat)).map
          (fun len => List.replicate e.digital_channels len) := by
    have h1 : ((elementChunks env s e ob).map Prod.snd).map (fun c => c.map List.length)
        = ((elementChunks env s e ob).map
            (fun c => (c.1.map List.length, c.2.map List.length))).map Prod.snd := by
      simp [List.map_map]
    rw [h1, elementChunks, hshape, List.map_map, List.map_map]
    refine List.map_congr_left ?_
    intro p hp
    simp [(hrows p hp).2]
  refine ⟨c1, c2, ?_, ?_⟩
  · have h1 := (sample_chunk_write env s ename ob tag e hlook hdig hana hne).1
    have h2 : (sample_pulse_block_ensemble env s ename true true ob tag).writerCalls.map
        (fun c => (c.analog.map List.length, c.digital.map List.length))
        = ((sample_pulse_block_ensemble env s ename true true ob tag).writerCalls.map
            (fun c => (c.analog, c.digital))).map
            (fun c => (c.1.map List.length, c.2.map List.length)) := by
      simp [List.map_map]
    rw [h2, h1, elementChunks, hshape]
    refine List.map_congr_left ?_
    intro p hp
    rw [(hrows p hp).1, (hrows p hp).2]
  · have h1 := (sample_mono_write env s ename ob tag e hlook hdig hana).2
    rw [h1]
    have hA : (concatRows e.analog_channels ((elementChunks env s e ob).map Prod.fst)).map
        List.length
        = List.replicate e.analog_channels
            (((ensembleElems e).map
              (fun p => (elementLengthBins p.1 p.2 s.sample_rate).toNat)).sum) :=
      concatRows_shape _ _ _ hanaShape
    have hD : (concatRows e.digital_channels ((elementChunks env s e ob).map Prod.snd)).map
        List.length
        = List.replicate e.digital_channels
            (((ensembleElems e).map
              (fun p => (elementLengthBins p.1 p.2 s.sample_rate).toNat)).sum) :=
      concatRows_shape _ _ _ hdigShape
    have htot : (analyze_block_ensemble s.sample_rate e).number_of_samples.toNat
        = ((ensembleElems e).map
            (fun p => (elementLengthBins p.1 p.2 s.sample_rate).toNat)).sum := by
      rw [← c2]
      exact Int.toNat_natCast _
    simp [hA, hD, htot]

/-- Witness for C3 at the concrete ensemble from `offset_bin = 7`. -/
theorem claim_C3_count_consistency_witness :
    ((∀ p ∈ ensembleElems exEnsemble, 0 ≤ elementLengthBins p.1 p.2 exState.sample_rate)
      ∧ ∀ p ∈ ensembleElems exEnsemble,
          p.1.pulse_function.length = exEnsemble.analog_channels
        ∧ p.1.digital_high.length = exEnsemble.digital_channels)
  ∧ ((analyze_block_ensemble exState.sample_rate exEnsemble).number_of_samples
        = sumLens exState.sample_rate (ensembleElems exEnsemble)
    ∧ (((ensembleElems exEnsemble).map
          (fun p => (elementLengthBins p.1 p.2 exState.sample_rate).toNat)).sum : ℤ)
        = (analyze_block_ensemble exState.sample_rate exEnsemble).number_of_samples
    ∧ (sample_pulse_block_ensemble exEnv exState "E" true true 7 "").writerCalls.map
          (fun c => (c.analog.map List.length, c.digital.map List.length))
        = (ensembleElems exEnsemble).map (fun p =>
            (List.replicate exEnsemble.analog_channels
              (elementLengthBins p.1 p.2 exState.sample_rate).toNat,
             List.replicate exEnsemble.digital_channels
              (elementLengthBins p.1 p.2 exState.sample_rate).toNat))
    ∧ (sample_pulse_block_ensemble exEnv exState "E" true false 7 "").writerCalls.map
          (fun c => (c.analog.map List.length, c.digital.map List.length))
        = [(List.replicate exEnsemble.analog_channels
              (analyze_block_ensemble exState.sample_rate exEnsemble).number_of_samples.toNat,
            List.replicate exEnsemble.digital_channels
              (analyze_block_ensemble exState.sample_rate exEnsemble).number_of_samples.toNat)]) :=
  ⟨⟨exEnsemble_lens_nonneg, by decide⟩,
    claim_C3_count_consistency exEnv exState "E" 7 "" exEnsemble rfl rfl rfl
      (by decide) exEnsemble_lens_nonneg (by decide)⟩

/-- Concrete ensemble declaring 3 analog / 1 digital channels, mismatching
the generator configuration (1 analog / 2 digital). -/
def exEnsembleMM : PulseBlockEnsemble :=
  { name := "EM", block_list := [(exBlock, 0)], analog_channels := 3, digital_channels := 1,
    rotating_frame := false, sample_rate := none, amplitude_dict := none,
    activation_config := none, laser_channel := none }

/-- Generator state (idle) holding the mismatching ensemble under "EM". -/
def exStateMM : GenState :=
  { exState with saved_pulse_block_ensembles := [("EM", exEnsembleMM)] }

/-- Counterexample to C5 as stated: sampling the mismatching ensemble from
`offset_bin = 5` returns `new_offset_bin = 0`, not the caller's 5, and
leaves the module locked, not idle (the lock taken on entry is never
released on this path). -/
theorem claim_C5_counterexample :
    (sample_pulse_block_ensemble exEnv exStateMM "EM" true true 5 "").result
        = .ok ([], [], [""], 0)
  ∧ retOffset (sample_pulse_block_ensemble exEnv exStateMM "EM" true true 5 "") ≠ some 5
  ∧ (sample_pulse_block_ensemble exEnv exStateMM "EM" true true 5 "").finalState
        = ModuleState.locked
  ∧ (sample_pulse_block_ensemble exEnv exStateMM "EM" true true 5 "").finalState
        ≠ ModuleState.idle := by
  decide

/-- C5 (amended): if the ensemble's declared channel counts differ from
the configured counts, `sample_pulse_block_ensemble` fails immediately:
it makes no writer call and returns empty analog and digital outputs —
but the returned `new_offset_bin` is the literal 0 (not the caller's
`offset_bin`), `created_files` is `['']`, no completion is announced,
and the module is left locked (the lock acquired on entry, or already
held, is not released). -/
theorem claim_C5_mismatch_behavior (env : MathEnv) (s : GenState) (ename : String)
    (write_to_file chunkwise : Bool) (ob : ℤ) (tag : String) (e : PulseBlockEnsemble)
    (hlook : s.saved_pulse_block_ensembles.lookup ename = some e)
    (hmm : s.digital_channels ≠ e.digital_channels
        ∨ s.analog_channels ≠ e.analog_channels) :
    (sample_pulse_block_ensemble env s ename write_to_file chunkwise ob tag).result
        = .ok ([], [], [""], 0)
  ∧ (sample_pulse_block_ensemble env s ename write_to_file chunkwise ob tag).writerCalls = []
  ∧ (sample_pulse_block_ensemble env s ename write_to_file chunkwise ob tag).finalState
        = ModuleState.locked
  ∧ (sample_pulse_block_ensemble env s ename write_to_file chunkwise ob tag).completionEmitted
        = false := by
  simp [sample_pulse_block_ensemble, hlook, hmm]

/-- Witness for the amended C5 at the concrete mismatching ensemble. -/
theorem claim_C5_mismatch_behavior_witness :
    (exStateMM.saved_pulse_block_ensembles.lookup "EM" = some exEnsembleMM
      ∧ (exStateMM.digital_channels ≠ exEnsembleMM.digital_channels
        ∨ exStateMM.analog_channels ≠ exEnsembleMM.analog_channels))
  ∧ ((sample_pulse_block_ensemble exEnv exStateMM "EM" false false 9 "x").result
        = .ok ([], [], [""], 0)
    ∧ (sample_pulse_block_ensemble exEnv exStateMM "EM" false false 9 "x").writerCalls = []
    ∧ (sample_pulse_block_ensemble exEnv exStateMM "EM" false false 9 "x").finalState
        = ModuleState.locked
    ∧ (sample_pulse_block_ensemble exEnv exStateMM "EM" false false 9 "x").completionEmitted
        = false) :=
  ⟨⟨rfl, by decide⟩,
    claim_C5_mismatch_behavior exEnv exStateMM "EM" false false 9 "x" exEnsembleMM rfl
      (by decide)⟩

/-- C6 evaluated at its failing input (code bug): with
`write_to_file = false` the sampler fills the monolithic arrays, unlocks
and announces completion — and then the Python `return` statement reads
the local `created_files`, which was never assigned on this path, so the
call raises `UnboundLocalError` instead of returning the sample arrays
promised by the claim and by the function's own docstring. -/
theorem claim_C6_write_false_raises :
    (sample_pulse_block_ensemble exEnv exState "E" false false 0 "").result
        = .error .unboundLocalCreatedFiles
  ∧ (sample_pulse_block_ensemble exEnv exState "E" false true 0 "").result
        = .error .unboundLocalCreatedFiles
  ∧ (sample_pulse_block_ensemble exEnv exState "E" false false 0 "").writerCalls = []
  ∧ (sample_pulse_block_ensemble exEnv exState "E" false false 0 "").finalState
        = ModuleState.idle
  ∧ (sample_pulse_block_ensemble exEnv exState "E" false false 0 "").completionEmitted
        = true := by
  refine ⟨?_, ?_, ?_, ?_, ?_⟩ <;> decide

/-- Modelled from the spec: the `different_ensembles_dict` attribute of a
`PulseSequence` (its defining class `logic/pulse_objects.py` is not part
of the analysed sources) is "a derived set of distinct ensemble names
referenced" by `ensemble_param_list`; as a Python dict it keeps first
insertion order. -/
def different_ensembles_dict (seq : PulseSequence) : List String :=
  (seq.ensemble_param_list.map (fun p => p.1.name)).foldl
    (fun acc n => if n ∈ acc then acc else acc ++ [n]) []

/-- First-occurrence deduplication (the order a Python dict built by
repeated insertion iterates in). -/
def dedupFirst (l : List String) : List String :=
  l.foldl (fun acc n => if n ∈ acc then acc else acc ++ [n]) []

/-- `str(n).zfill(3)`. -/
def zfill3 (n : ℕ) : String :=
  let s := toString n
  if s.length = 1 then "00" ++ s else if s.length = 2 then "0" ++ s else s

/-- One inner `self.sample_pulse_block_ensemble(...)` call made by
`sample_pulse_sequence`, with its arguments. -/
structure InnerCall where
  ensemble_name : String
  write_to_file : Bool
  chunkwise : Bool
  offset_bin : ℤ
  name_tag : String
deriving DecidableEq, Repr

/-- One entry of `sequence_param_dict_list`: the `'name'` key holds the
created files, merged with the step's opaque sequence parameters. -/
structure SeqStep where
  files : List String
  seq_param : List (String × String)
deriving DecidableEq, Repr

/-- Outcome of `sample_pulse_sequence`. -/
inductive SeqOutcome
  | busyRejected
  | raised (e : PyError)
  | completed
deriving DecidableEq, Repr

/-- Observable result of `sample_pulse_sequence`: outcome, trace of inner
ensemble-sampling calls, the assembled step list and sampled-ensembles
map, the generator state afterwards, and whether the sequence-format
writer ran. -/
structure SeqSampleOutput where
  outcome : SeqOutcome
  innerCalls : List InnerCall
  sequence_param_dict_list : List SeqStep
  sampled_ensembles : List (String × List String)
  finalState : GenState
  seqWriterCalled : Bool

/-- Insert-or-overwrite into a name-keyed map (Python dict assignment). -/
def dictInsert (m : List (String × β)) (k : String) (v : β) : List (String × β) :=
  if m.any (fun p => p.1 = k) then m.map (fun p => if p.1 = k then (k, v) else p)
  else m ++ [(k, v)]

/-- The non-rotating loop of `sample_pulse_sequence`: sample each distinct
ensemble name once with `offset_bin = 0` and empty name tag, recording
`sampled_ensembles[name] = created_files`.  An inner exception aborts the
loop and propagates (third component). -/
def seqLoopNonRot (env : MathEnv) (s : GenState) (write_to_file chunkwise : Bool) :
    List String → List InnerCall × List (String × List String) × Option PyError
  | [] => ([], [], none)
  | n :: rest =>
      let out := sample_pulse_block_ensemble env s n write_to_file chunkwise 0 ""
      match out.result with
      | .error e => ([⟨n, write_to_file, chunkwise, 0, ""⟩], [], some e)
      | .ok r =>
          let rec2 := seqLoopNonRot env s write_to_file chunkwise rest
          (⟨n, write_to_file, chunkwise, 0, ""⟩ :: rec2.1, (n, r.2.2.1) :: rec2.2.1, rec2.2.2)

/-- The rotating-frame loop of `sample_pulse_sequence`: every occurrence is
sampled in order, threading the returned `offset_bin` into the next call
and tagging each occurrence with `'_' + str(index).zfill(3)`.  Returns
(inner calls, sampled-ensembles entries, step list, final offset, escaped
exception). -/
def seqLoopRot (env : MathEnv) (s : GenState) (write_to_file chunkwise : Bool) :
    ℕ → ℤ → List (PulseBlockEnsemble × List (String × String)) →
      List InnerCall × List (String × List String) × List SeqStep × ℤ × Option PyError
  | _, ob, [] => ([], [], [], ob, none)
  | idx, ob, pr :: rest =>
      let tag := "_" ++ zfill3 idx
      let out := sample_pulse_block_ensemble env s pr.1.name write_to_file chunkwise ob tag
      match out.result with
      | .error e => ([⟨pr.1.name, write_to_file, chunkwise, ob, tag⟩], [], [], ob, some e)
      | .ok r =>
          let rec2 := seqLoopRot env s write_to_file chunkwise (idx + 1) r.2.2.2 rest
          (⟨pr.1.name, write_to_file, chunkwise, ob, tag⟩ :: rec2.1,
           (pr.1.name ++ tag, r.2.2.1) :: rec2.2.1,
           ⟨r.2.2.1, pr.2⟩ :: rec2.2.2.1,
           rec2.2.2.2.1, rec2.2.2.2.2)

/-- `sample_pulse_sequence`: reject with a busy condition if the module is
locked, else lock it; resolve the sequence name (`KeyError` escapes,
module left locked); run the rotating or non-rotating loop; then store
`sampled_ensembles` on the sequence object, re-save it
(`save_sequence` sets its `name` and updates the saved map and
`current_sequence`), call the sequence-format writer once, announce
completion and unlock. -/
def sample_pulse_sequence (env : MathEnv) (s : GenState) (sequence_name : String)
    (write_to_file chunkwise : Bool) : SeqSampleOutput :=
  match s.state with
  | .locked =>
      { outcome := .busyRejected, innerCalls := [], sequence_param_dict_list := [],
        sampled_ensembles := [], finalState := s, seqWriterCalled := false }
  | .idle =>
      let s1 : GenState := { s with state := .locked }
      match s1.saved_pulse_sequences.lookup sequence_name with
      | none =>
          { outcome := .raised .keyError, innerCalls := [], sequence_param_dict_list := [],
            sampled_ensembles := [], finalState := s1, seqWriterCalled := false }
      | some sequence_obj =>
          if sequence_obj.rotating_frame then
            let res := seqLoopRot env s1 write_to_file chunkwise 0 0
              sequence_obj.ensemble_param_list
            match res.2.2.2.2 with
            | some e =>
                { outcome := .raised e, innerCalls := res.1, sequence_param_dict_list := [],
                  sampled_ensembles := [], finalState := s1, seqWriterCalled := false }
            | none =>
                let seq2 : PulseSequence :=
                  { sequence_obj with
                    name := sequence_name
                    sampled_ensembles := res.2.1 }
                { outcome := .completed, innerCalls := res.1,
                  sequence_param_dict_list := res.2.2.1, sampled_ensembles := res.2.1,
                  finalState := { s1 with
                    saved_pulse_sequences :=
                      dictInsert s1.saved_pulse_sequences sequence_name seq2,
                    current_sequence := some seq2, state := .idle },
                  seqWriterCalled := true }
          else
            let res := seqLoopNonRot env s1 write_to_file chunkwise
              (different_ensembles_dict sequence_obj)
            match res.2.2 with
            | some e =>
                { outcome := .raised e, innerCalls := res.1, sequence_param_dict_list := [],
                  sampled_ensembles := [], finalState := s1, seqWriterCalled := false }
            | none =>
                let steps := sequence_obj.ensemble_param_list.map (fun pr =>
                  (⟨(res.2.1.lookup pr.1.name).getD [], pr.2⟩ : SeqStep))
                let seq2 : PulseSequence :=
                  { sequence_obj with
                    name := sequence_name
                    sampled_ensembles := res.2.1 }
                { outcome := .completed, innerCalls := res.1,
                  sequence_param_dict_list := steps, sampled_ensembles := res.2.1,
                  finalState := { s1 with
                    saved_pulse_sequences :=
                      dictInsert s1.saved_pulse_sequences sequence_name seq2,
                    current_sequence := some seq2, state := .idle },
                  seqWriterCalled := true }

/-- `load_ensemble`: unknown names are logged and change nothing; for a
stored name, every non-`None` metadata field overwrites the generator's
configuration, and `current_ensemble` is set. -/
def load_ensemble (s : GenState) (name : String) : GenState :=
  match s.saved_pulse_block_ensembles.lookup name with
  | none => s
  | some ensemble =>
      let s1 := match ensemble.sample_rate with
        | some r => { s with sample_rate := r }
        | none => s
      let s2 := match ensemble.amplitude_dict with
        | some d => { s1 with amplitude_dict := d }
        | none => s1
      let s3 := match ensemble.activation_config with
        | some c => { s2 with activation_config := c }
        | none => s2
      let s4 := match ensemble.laser_channel with
        | some lc => { s3 with laser_channel := some lc }
        | none => s3
      { s4 with current_ensemble := some ensemble }

/-- `load_sequence`: identical shape to `load_ensemble`, updating
`current_sequence`. -/
def load_sequence (s : GenState) (name : String) : GenState :=
  match s.saved_pulse_sequences.lookup name with
  | none => s
  | some sequence =>
      let s1 := match sequence.sample_rate with
        | some r => { s with sample_rate := r }
        | none => s
      let s2 := match sequence.amplitude_dict with
        | some d => { s1 with amplitude_dict := d }
        | none => s1
      let s3 := match sequence.activation_config with
        | some c => { s2 with activation_config := c }
        | none => s2
      let s4 := match sequence.laser_channel with
        | some lc => { s3 with laser_channel := some lc }
        | none => s3
      { s4 with current_sequence := some sequence }

/-- Outcome of `generate_predefined_sequence`: the looked-up callable's
exception is caught and reported as a generation failure naming the
sequence; a missing registry entry raises `KeyError` at the lookup, which
sits outside the `try` block. -/
inductive PredefOutcome
  | raised
  | generationFailureLogged (name : String)
  | completed (name : String)
deriving DecidableEq, Repr

/-- `generate_predefined_sequence(name, args)`: look up
`self.generate_methods[name]` (outside the `try`), invoke it on the
arguments, log a generation failure naming the sequence if it raises,
else emit `sigPredefinedSequenceGenerated`.  A callable is modelled as a
function from the argument list to `Except` (raising or returning). -/
def generate_predefined_sequence
    (generate_methods : List (String × (List ℚ → Except String Unit)))
    (predefined_sequence_name : String) (args : List ℚ) : PredefOutcome :=
  match generate_methods.lookup predefined_sequence_name with
  | none => .raised
  | some gen_method =>
      match gen_method args with
      | .error _ => .generationFailureLogged predefined_sequence_name
      | .ok _ => .completed predefined_sequence_name

/-- First-occurrence deduplication never produces duplicates. -/
theorem dedupFoldl_nodup (l : List String) :
    ∀ acc : List String, acc.Nodup →
      (l.foldl (fun acc n => if n ∈ acc then acc else acc ++ [n]) acc).Nodup := by
  induction l with
  | nil => exact fun acc h => h
  | cons n rest ih =>
      intro acc h
      rw [List.foldl_cons]
      by_cases hn : n ∈ acc
      · rw [if_pos hn]
        exact ih acc h
      · rw [if_neg hn]
        refine ih _ ?_
        simp [List.nodup_append, h, hn]

/-- Membership in the deduplicating fold. -/
theorem mem_dedupFoldl (l : List String) (x : String) :
    ∀ acc : List String,
      (x ∈ l.foldl (fun acc n => if n ∈ acc then acc else acc ++ [n]) acc ↔ x ∈ acc ∨ x ∈ l) := by
  induction l with
  | nil =>
      intro acc
      simp
  | cons n rest ih =>
      intro acc
      rw [List.foldl_cons]
      by_cases hn : n ∈ acc
      · rw [if_pos hn, ih]
        constructor
        · rintro (h | h)
          · exact Or.inl h
          · exact Or.inr (List.mem_cons_of_mem _ h)
        · rintro (h | h)
          · exact Or.inl h
          · rcases List.mem_cons.mp h with rfl | h
            · exact Or.inl hn
            · exact Or.inr h
      · rw [if_neg hn, ih]
        simp only [List.mem_append, List.mem_cons, List.mem_singleton]
        tauto

/-- The distinct-name list is duplicate-free and lists exactly the names
referenced by `ensemble_param_list`. -/
theorem different_ensembles_spec (sq : PulseSequence) :
    (different_ensembles_dict sq).Nodup
  ∧ (∀ n, n ∈ different_ensembles_dict sq
        ↔ n ∈ sq.ensemble_param_list.map (fun p => p.1.name)) := by
  constructor
  · exact dedupFoldl_nodup _ [] List.nodup_nil
  · intro n
    rw [different_ensembles_dict, mem_dedupFoldl]
    simp

/-- A successful non-rotating sequence loop samples each listed name once,
with `offset_bin = 0` and empty name tag, and records each name's created
files. -/
theorem seqLoopNonRot_ok (env : MathEnv) (s : GenState) (w c : Bool)
    (names : List String)
    (h : (seqLoopNonRot env s w c names).2.2 = none) :
    (seqLoopNonRot env s w c names).1
        = names.map (fun n => ⟨n, w, c, 0, ""⟩)
  ∧ (seqLoopNonRot env s w c names).2.1
        = names.map (fun n =>
            (n, (retCreatedFiles (sample_pulse_block_ensemble env s n w c 0 "")).getD [])) := by
  induction names with
  | nil => exact ⟨rfl, rfl⟩
  | cons n rest ih =>
      cases hres : (sample_pulse_block_ensemble env s n w c 0 "").result with
      | error e =>
          rw [seqLoopNonRot] at h
          simp only [hres] at h
          exact absurd h (by simp)
      | ok r =>
          rw [seqLoopNonRot] at h ⊢
          simp only [hres] at h ⊢
          obtain ⟨h1, h2⟩ := ih h
          rw [List.map_cons, List.map_cons, h1, h2]
          refine ⟨rfl, ?_⟩
          simp [retCreatedFiles, hres]

/-- C7: for a sequence with `rotating_frame = false`,
`sample_pulse_sequence` makes exactly one inner ensemble-sampling call
per distinct referenced ensemble name (the distinct-name list is
duplicate-free and covers exactly the referenced names), each with
`offset_bin = 0` and empty name tag, and maps every occurrence in
`ensemble_param_list` to the single shared output files recorded for its
ensemble; a sequence referencing one name three times therefore triggers
exactly one call. -/
theorem claim_C7_sequence_dedup (env : MathEnv) (s : GenState) (sequence_name : String)
    (w c : Bool) (sq : PulseSequence)
    (hidle : s.state = ModuleState.idle)
    (hlook : s.saved_pulse_sequences.lookup sequence_name = some sq)
    (hrot : sq.rotating_frame = false)
    (hok : (seqLoopNonRot env { s with state := ModuleState.locked } w c
        (different_ensembles_dict sq)).2.2 = none) :
    (sample_pulse_sequence env s sequence_name w c).innerCalls
        = (different_ensembles_dict sq).map (fun n => ⟨n, w, c, 0, ""⟩)
  ∧ (different_ensembles_dict sq).Nodup
  ∧ (∀ n, n ∈ different_ensembles_dict sq
        ↔ n ∈ sq.ensemble_param_list.map (fun p => p.1.name))
  ∧ (sample_pulse_sequence env s sequence_name w c).sampled_ensembles
        = (different_ensembles_dict sq).map (fun n =>
            (n, (retCreatedFiles (sample_pulse_block_ensemble env
                  { s with state := ModuleState.locked } n w c 0 "")).getD []))
  ∧ (sample_pulse_sequence env s sequence_name w c).sequence_param_dict_list
        = sq.ensemble_param_list.map (fun pr =>
            ⟨(((sample_pulse_sequence env s sequence_name w c).sampled_ensembles).lookup
                pr.1.name).getD [], pr.2⟩) := by
  obtain ⟨hcalls, hse⟩ := seqLoopNonRot_ok env { s with state := ModuleState.locked } w c
    (different_ensembles_dict sq) hok
  have hred : sample_pulse_sequence env s sequence_name w c
      = { outcome := .completed
          innerCalls := (seqLoopNonRot env { s with state := ModuleState.locked } w c
            (different_ensembles_dict sq)).1
          sequence_param_dict_list := sq.ensemble_param_list.map (fun pr =>
            (⟨((seqLoopNonRot env { s with state := ModuleState.locked } w c
                  (different_ensembles_dict sq)).2.1.lookup pr.1.name).getD [],
               pr.2⟩ : SeqStep))
          sampled_ensembles := (seqLoopNonRot env { s with state := ModuleState.locked } w c
            (different_ensembles_dict sq)).2.1
          finalState := { s with
            saved_pulse_sequences := dictInsert s.saved_pulse_sequences sequence_name
              { sq with
                name := sequence_name
                sampled_ensembles := (seqLoopNonRot env
                  { s with state := ModuleState.locked } w c
                  (different_ensembles_dict sq)).2.1 }
            current_sequence := some
              { sq with
                name := sequence_name
                sampled_ensembles := (seqLoopNonRot env
                  { s with state := ModuleState.locked } w c
                  (different_ensembles_dict sq)).2.1 }
            state := .idle }
          seqWriterCalled := true } := by
    rw [sample_pulse_sequence]
    simp only [hidle]
    simp only [hlook, hrot, Bool.false_eq_true, if_false, ite_false]
    rw [hok]
  refine ⟨?_, (different_ensembles_spec sq).1, (different_ensembles_spec sq).2, ?_, ?_⟩
  · rw [hred]
    exact hcalls
  · rw [hred]
    exact hse
  · rw [hred]

/-- The returned value and the writer-call trace of
`sample_pulse_block_ensemble` do not depend on the module flag at entry:
the flag only controls whether the call itself locks/unlocks and
announces completion. -/
theorem sample_state_independent (env : MathEnv) (s : GenState) (m : ModuleState)
    (ename : String) (w c : Bool) (ob : ℤ) (tag : String) :
    (sample_pulse_block_ensemble env { s with state := m } ename w c ob tag).result
      = (sample_pulse_block_ensemble env s ename w c ob tag).result
  ∧ (sample_pulse_block_ensemble env { s with state := m } ename w c ob tag).writerCalls
      = (sample_pulse_block_ensemble env s ename w c ob tag).writerCalls := by
  cases hl : s.saved_pulse_block_ensembles.lookup ename with
  | none => exact ⟨by simp [sample_pulse_block_ensemble, hl], by
      simp [sample_pulse_block_ensemble, hl]⟩
  | some e =>
      have hstep : (sampleStep env ({ s with state := m } : GenState) e)
          = sampleStep env s e := rfl
      by_cases hmm : s.digital_channels ≠ e.digital_channels
          ∨ s.analog_channels ≠ e.analog_channels
      · exact ⟨by simp [sample_pulse_block_ensemble, hl, hmm], by
          simp [sample_pulse_block_ensemble, hl, hmm]⟩
      · cases w <;> cases c <;>
          exact ⟨by simp [sample_pulse_block_ensemble, hl, hmm, hstep], by
            simp [sample_pulse_block_ensemble, hl, hmm, hstep]⟩

/-- An ensemble-sampling call entered while the module is already locked
runs as a sub-step: it leaves the module locked and does not announce
completion. -/
theorem sample_locked_substep (env : MathEnv) (s : GenState)
    (ename : String) (w c : Bool) (ob : ℤ) (tag : String)
    (h : s.state = ModuleState.locked) :
    (sample_pulse_block_ensemble env s ename w c ob tag).finalState = ModuleState.locked
  ∧ (sample_pulse_block_ensemble env s ename w c ob tag).completionEmitted = false := by
  cases hl : s.saved_pulse_block_ensembles.lookup ename with
  | none => exact ⟨by simp [sample_pulse_block_ensemble, hl], by
      simp [sample_pulse_block_ensemble, hl]⟩
  | some e =>
      by_cases hmm : s.digital_channels ≠ e.digital_channels
          ∨ s.analog_channels ≠ e.analog_channels
      · exact ⟨by simp [sample_pulse_block_ensemble, hl, hmm], by
          simp [sample_pulse_block_ensemble, hl, hmm]⟩
      · cases w <;> cases c <;>
          exact ⟨by simp [sample_pulse_block_ensemble, hl, hmm, h], by
            simp [sample_pulse_block_ensemble, hl, hmm, h]⟩

/-- C8: starting `sample_pulse_sequence` while the generator is busy is
rejected with a busy condition and changes nothing (no state change, no
inner calls, no sequence writer call); entering
`sample_pulse_block_ensemble` while the module is locked is not rejected
— it computes the same return value and writer calls as an idle-entry
call — but it runs as a sub-step: it neither unlocks the module nor
announces completion. -/
theorem claim_C8_busy_mutual_exclusion (env : MathEnv) (s : GenState)
    (sequence_name ename : String) (w c w2 c2 : Bool) (ob : ℤ) (tag : String)
    (hbusy : s.state = ModuleState.locked) :
    (sample_pulse_sequence env s sequence_name w c).outcome = SeqOutcome.busyRejected
  ∧ (sample_pulse_sequence env s sequence_name w c).finalState = s
  ∧ (sample_pulse_sequence env s sequence_name w c).innerCalls = []
  ∧ (sample_pulse_sequence env s sequence_name w c).seqWriterCalled = false
  ∧ (sample_pulse_block_ensemble env s ename w2 c2 ob tag).result
      = (sample_pulse_block_ensemble env { s with state := ModuleState.idle }
          ename w2 c2 ob tag).result
  ∧ (sample_pulse_block_ensemble env s ename w2 c2 ob tag).writerCalls
      = (sample_pulse_block_ensemble env { s with state := ModuleState.idle }
          ename w2 c2 ob tag).writerCalls
  ∧ (sample_pulse_block_ensemble env s ename w2 c2 ob tag).finalState = ModuleState.locked
  ∧ (sample_pulse_block_ensemble env s ename w2 c2 ob tag).completionEmitted = false := by
  have hseq : sample_pulse_sequence env s sequence_name w c
      = { outcome := .busyRejected, innerCalls := [], sequence_param_dict_list := [],
          sampled_ensembles := [], finalState := s, seqWriterCalled := false } := by
    rw [sample_pulse_sequence]
    simp only [hbusy]
  have hind := sample_state_independent env s ModuleState.idle ename w2 c2 ob tag
  have hsub := sample_locked_substep env s ename w2 c2 ob tag hbusy
  exact ⟨by rw [hseq], by rw [hseq], by rw [hseq], by rw [hseq],
    hind.1.symm, hind.2.symm, hsub.1, hsub.2⟩

/-- C9: for a registered name, `generate_predefined_sequence` invokes the
registered callable on the argument list; if the callable raises, the
failure is reported as a generation-failure condition identifying the
name, and the underlying exception never propagates to the caller. -/
theorem claim_C9_generation_failure_contained
    (generate_methods : List (String × (List ℚ → Except String Unit)))
    (name : String) (args : List ℚ) (f : List ℚ → Except String Unit)
    (hreg : generate_methods.lookup name = some f) :
    (∀ e, f args = .error e →
        generate_predefined_sequence generate_methods name args
          = .generationFailureLogged name)
  ∧ (f args = .ok () →
        generate_predefined_sequence generate_methods name args
          = .completed name)
  ∧ generate_predefined_sequence generate_methods name args ≠ .raised := by
  refine ⟨?_, ?_, ?_⟩
  · intro e he
    simp [generate_predefined_sequence, hreg, he]
  · intro h
    simp [generate_predefined_sequence, hreg, h]
  · cases hf : f args <;> simp [generate_predefined_sequence, hreg, hf]

/-- C10: `load_ensemble`/`load_sequence` on a stored name overwrite the
generator's `sample_rate`, `amplitude_dict`, `activation_config` and
`laser_channel` with the loaded object's non-`None` metadata values,
leave fields whose stored metadata is `None` unchanged, set the
corresponding `current_*` pointer — and change nothing else. -/
theorem claim_C10_load_metadata (s : GenState) (en sn : String)
    (e : PulseBlockEnsemble) (sq : PulseSequence)
    (he : s.saved_pulse_block_ensembles.lookup en = some e)
    (hs : s.saved_pulse_sequences.lookup sn = some sq) :
    load_ensemble s en
      = { s with
          sample_rate := e.sample_rate.getD s.sample_rate
          amplitude_dict := e.amplitude_dict.getD s.amplitude_dict
          activation_config := e.activation_config.getD s.activation_config
          laser_channel := if e.laser_channel.isSome then e.laser_channel
            else s.laser_channel
          current_ensemble := some e }
  ∧ load_sequence s sn
      = { s with
          sample_rate := sq.sample_rate.getD s.sample_rate
          amplitude_dict := sq.amplitude_dict.getD s.amplitude_dict
          activation_config := sq.activation_config.getD s.activation_config
          laser_channel := if sq.laser_channel.isSome then sq.laser_channel
            else s.laser_channel
          current_sequence := some sq } := by
  constructor
  · rw [load_ensemble, he]
    cases h1 : e.sample_rate <;> cases h2 : e.amplitude_dict <;>
      cases h3 : e.activation_config <;> cases h4 : e.laser_channel <;>
        simp [h1, h2, h3, h4]
  · rw [load_sequence, hs]
    cases h1 : sq.sample_rate <;> cases h2 : sq.amplitude_dict <;>
      cases h3 : sq.activation_config <;> cases h4 : sq.laser_channel <;>
        simp [h1, h2, h3, h4]

/-- Concrete sequence referencing the ensemble name "E" three times, with
`rotating_frame = false` and partly-`None` metadata. -/
def exSequence : PulseSequence :=
  { name := "S",
    ensemble_param_list := [(exEnsemble, [("repetitions", "2")]), (exEnsemble, []),
                            (exEnsemble, [("go_to", "1")])],
    rotating_frame := false, sample_rate := some 8, amplitude_dict := none,
    activation_config := some ["a_ch1", "d_ch1"], laser_channel := some "d_ch2",
    sampled_ensembles := [] }

/-- Concrete generator state holding both the ensemble "E" and the
sequence "S". -/
def exStateSeq : GenState :=
  { exState with saved_pulse_sequences := [("S", exSequence)] }

/-- Witness for C7: the concrete sequence names "E" three times, yet
exactly one inner sampling call (for "E", `offset_bin = 0`) is made. -/
theorem claim_C7_sequence_dedup_witness :
    (exStateSeq.state = ModuleState.idle
      ∧ exStateSeq.saved_pulse_sequences.lookup "S" = some exSequence
      ∧ exSequence.rotating_frame = false
      ∧ (seqLoopNonRot exEnv { exStateSeq with state := ModuleState.locked } true false
          (different_ensembles_dict exSequence)).2.2 = none)
  ∧ ((sample_pulse_sequence exEnv exStateSeq "S" true false).innerCalls
        = (different_ensembles_dict exSequence).map (fun n => ⟨n, true, false, 0, ""⟩)
    ∧ (different_ensembles_dict exSequence).Nodup
    ∧ (∀ n, n ∈ different_ensembles_dict exSequence
          ↔ n ∈ exSequence.ensemble_param_list.map (fun p => p.1.name))
    ∧ (sample_pulse_sequence exEnv exStateSeq "S" true false).sampled_ensembles
        = (different_ensembles_dict exSequence).map (fun n =>
            (n, (retCreatedFiles (sample_pulse_block_ensemble exEnv
                  { exStateSeq with state := ModuleState.locked } n true false 0 "")).getD []))
    ∧ (sample_pulse_sequence exEnv exStateSeq "S" true false).sequence_param_dict_list
        = exSequence.ensemble_param_list.map (fun pr =>
            ⟨(((sample_pulse_sequence exEnv exStateSeq "S" true false).sampled_ensembles).lookup
                pr.1.name).getD [], pr.2⟩)) :=
  ⟨⟨rfl, rfl, rfl, rfl⟩,
    claim_C7_sequence_dedup exEnv exStateSeq "S" true false exSequence rfl rfl rfl rfl⟩

/-- Generator state that is already busy (locked). -/
def exStateLocked : GenState := { exState with state := ModuleState.locked }

/-- Witness for C8 at the concrete busy state. -/
theorem claim_C8_busy_mutual_exclusion_witness :
    exStateLocked.state = ModuleState.locked
  ∧ ((sample_pulse_sequence exEnv exStateLocked "S" true true).outcome
        = SeqOutcome.busyRejected
    ∧ (sample_pulse_sequence exEnv exStateLocked "S" true true).finalState = exStateLocked
    ∧ (sample_pulse_sequence exEnv exStateLocked "S" true true).innerCalls = []
    ∧ (sample_pulse_sequence exEnv exStateLocked "S" true true).seqWriterCalled = false
    ∧ (sample_pulse_block_ensemble exEnv exStateLocked "E" true false 7 "_000").result
        = (sample_pulse_block_ensemble exEnv { exStateLocked with state := ModuleState.idle }
            "E" true false 7 "_000").result
    ∧ (sample_pulse_block_ensemble exEnv exStateLocked "E" true false 7 "_000").writerCalls
        = (sample_pulse_block_ensemble exEnv { exStateLocked with state := ModuleState.idle }
            "E" true false 7 "_000").writerCalls
    ∧ (sample_pulse_block_ensemble exEnv exStateLocked "E" true false 7 "_000").finalState
        = ModuleState.locked
    ∧ (sample_pulse_block_ensemble exEnv exStateLocked "E" true false 7 "_000").completionEmitted
        = false) :=
  ⟨rfl, claim_C8_busy_mutual_exclusion exEnv exStateLocked "S" "E" true true true false
    7 "_000" rfl⟩

/-- Concrete predefined-generator registry: "rabi" fails on an empty
argument list and succeeds otherwise. -/
def exMethods : List (String × (List ℚ → Except String Unit)) :=
  [("rabi", fun args => if args.isEmpty then .error "no args" else .ok ())]

/-- Witness for C9 at the concrete registry. -/
theorem claim_C9_generation_failure_contained_witness :
    exMethods.lookup "rabi"
        = some (fun args => if args.isEmpty then .error "no args" else .ok ())
  ∧ ((∀ e, (if ([] : List ℚ).isEmpty then (.error "no args" : Except String Unit)
          else .ok ()) = .error e →
        generate_predefined_sequence exMethods "rabi" []
          = .generationFailureLogged "rabi")
    ∧ ((if ([] : List ℚ).isEmpty then (.error "no args" : Except String Unit)
          else .ok ()) = .ok () →
        generate_predefined_sequence exMethods "rabi" [] = .completed "rabi")
    ∧ generate_predefined_sequence exMethods "rabi" [] ≠ .raised) :=
  ⟨rfl, claim_C9_generation_failure_contained exMethods "rabi" []
    (fun args => if args.isEmpty then .error "no args" else .ok ()) rfl⟩

/-- Witness for C10 at the concrete state holding ensemble "E" (all
metadata `None`) and sequence "S" (partly non-`None` metadata). -/
theorem claim_C10_load_metadata_witness :
    (exStateSeq.saved_pulse_block_ensembles.lookup "E" = some exEnsemble
      ∧ exStateSeq.saved_pulse_sequences.lookup "S" = some exSequence)
  ∧ (load_ensemble exStateSeq "E"
      = { exStateSeq with
          sample_rate := exEnsemble.sample_rate.getD exStateSeq.sample_rate
          amplitude_dict := exEnsemble.amplitude_dict.getD exStateSeq.amplitude_dict
          activation_config := exEnsemble.activation_config.getD exStateSeq.activation_config
          laser_channel := if exEnsemble.laser_channel.isSome then exEnsemble.laser_channel
            else exStateSeq.laser_channel
          current_ensemble := some exEnsemble }
    ∧ load_sequence exStateSeq "S"
      = { exStateSeq with
          sample_rate := exSequence.sample_rate.getD exStateSeq.sample_rate
          amplitude_dict := exSequence.amplitude_dict.getD exStateSeq.amplitude_dict
          activation_config := exSequence.activation_config.getD exStateSeq.activation_config
          laser_channel := if exSequence.laser_channel.isSome then exSequence.laser_channel
            else exStateSeq.laser_channel
          current_sequence := some exSequence }) :=
  ⟨⟨rfl, rfl⟩, claim_C10_load_metadata exStateSeq "E" "S" exEnsemble exSequence rfl rfl⟩

end Qudi
